import Mathlib

/-!
Verification development for the Moneytree Tracking Bot (`main.py`).

The Python source is shallowly embedded: strings are modelled as `String`
(lists of characters), the regex-based sanitizer is modelled by explicit
character-list recursions matching the regexes used by the source
(`<.*?>`, `\s+`, single-character class substitution), network effects are
modelled by an explicit fetch oracle `Nat → FetchResp` giving the outcome
of each attempt, and exceptions are modelled with `Except`.
-/

namespace MTB

/-- Python whitespace class (`\s` for ASCII text, also used by `str.strip`). -/
def isPyWs (c : Char) : Bool :=
  c = ' ' || c = '\t' || c = '\n' || c = '\r' || c = '\x0b' || c = '\x0c'

/-- Drop leading Python whitespace. -/
def dropWs : List Char → List Char
  | [] => []
  | c :: rest => if isPyWs c then dropWs rest else c :: rest

/-- Python `str.strip()` on a character list. -/
def pyStripList (l : List Char) : List Char :=
  ((dropWs l.reverse).reverse |> dropWs)

/-- Python `str.strip()`. -/
def pyStrip (s : String) : String := String.mk (pyStripList s.data)

/-- Python `str.lower()` (ASCII inputs). -/
def lowerStr (s : String) : String := String.mk (s.data.map Char.toLower)

/-- Index of the leftmost occurrence of `pat` in `l` (Python `in` / `str.find`). -/
def findSubAux (pat : List Char) : List Char → Nat → Option Nat
  | [], i => if pat = [] then some i else none
  | l@(_ :: rest), i => if pat.isPrefixOf l then some i else findSubAux pat rest (i + 1)

def findSub (pat l : List Char) : Option Nat := findSubAux pat l 0

/-- Python `pat in s` substring test. -/
def containsSub (s pat : String) : Bool := (findSub pat.data s.data).isSome

/-- Python `s.find(pat, start)`, `none` playing the role of `-1`. -/
def findSubFrom (pat l : List Char) (start : Nat) : Option Nat :=
  (findSub pat (l.drop start)).map (· + start)

/-- Python `str.startswith`. -/
def startsWithS (s p : String) : Bool := p.data.isPrefixOf s.data

/-- Python `str.replace(pat, rep)` for nonempty `pat` (every literal pattern
passed by the source is nonempty), fuel-based so it reduces in the kernel. -/
def replaceAllF (pat rep : List Char) : Nat → List Char → List Char
  | 0, l => l
  | _ + 1, [] => []
  | fuel + 1, l@(c :: rest) =>
    if pat ≠ [] ∧ pat.isPrefixOf l then rep ++ replaceAllF pat rep fuel (l.drop pat.length)
    else c :: replaceAllF pat rep fuel rest

def replaceAll (pat rep l : List Char) : List Char := replaceAllF pat rep l.length l

/-- Python `s.split('\n')`. -/
def splitLinesAux : List Char → List Char → List (List Char)
  | [], acc => [acc.reverse]
  | c :: rest, acc =>
    if c = '\n' then acc.reverse :: splitLinesAux rest [] else splitLinesAux rest (c :: acc)

def splitLines (l : List Char) : List (List Char) := splitLinesAux l []

/-- Python `'\n'.join(ls)`. -/
def joinNL (ls : List (List Char)) : List Char := List.intercalate ['\n'] ls

/-- First index `i` with `p (ls[i])`, counting from `s`. -/
def firstIdxAux (p : List Char → Bool) : List (List Char) → Nat → Option Nat
  | [], _ => none
  | l :: rest, i => if p l then some i else firstIdxAux p rest (i + 1)

/-! ## The Markup Sanitizer (`clean_html`, `escape_markdown`) -/

/-- Position of the first `>` before any newline (the end of a non-greedy
single-line `<.*?>` match), if any. -/
def findGt : List Char → Option Nat
  | [] => none
  | c :: rest =>
    if c = '>' then some 0
    else if c = '\n' then none
    else (findGt rest).map (· + 1)

/-- Model of `re.sub('<.*?>', ' ', raw)`: each leftmost shortest single-line `<...>`
fragment becomes one space. Fuel-based (every step consumes a character). -/
def stripTagsF : Nat → List Char → List Char
  | 0, l => l
  | _ + 1, [] => []
  | fuel + 1, c :: rest =>
    if c = '<' then
      match findGt rest with
      | some k => ' ' :: stripTagsF fuel (rest.drop (k + 1))
      | none => '<' :: stripTagsF fuel rest
    else c :: stripTagsF fuel rest

/-- Model of `re.sub('\s+', ' ', s)`: collapse whitespace runs to a single space.
The flag records whether the previous character was whitespace. -/
def collapseWsAux : Bool → List Char → List Char
  | _, [] => []
  | prevWs, c :: rest =>
    if isPyWs c then (if prevWs then collapseWsAux true rest else ' ' :: collapseWsAux true rest)
    else c :: collapseWsAux false rest

/-- Model of `clean_html` from `main.py`: strip tags, collapse whitespace, strip,
rewrite parentheses to angle glyphs, drop the boilerplate phrases. -/
def clean_htmlL (l : List Char) : List Char :=
  let t1 := stripTagsF l.length l
  let t2 := pyStripList (collapseWsAux false t1)
  let t3 := t2.map (fun c => if c = '(' then '〈' else if c = ')' then '〉' else c)
  let t4 := replaceAll "Click to show more".data [] t3
  replaceAll "Click to show less".data [] t4

def clean_html (s : String) : String := String.mk (clean_htmlL s.data)

/-- The reserved characters of `escape_markdown` (`r'\_*~`>#+-=|{}.!'`).
The backquote, hash and brace characters are written by code point. -/
def reservedChars : List Char :=
  ['\\', '_', '*', '~', Char.ofNat 96, '>', Char.ofNat 35, '+', '-', '=', '|',
   Char.ofNat 123, Char.ofNat 125, '.', '!']

def isReserved (c : Char) : Bool := reservedChars.contains c

/-- Model of `re.sub('([\\_*~`>#+-=|{}.!])', r'\\\1', text)`: prefix every reserved
character with a backslash. -/
def escapeList : List Char → List Char
  | [] => []
  | c :: rest => (if isReserved c then ['\\', c] else [c]) ++ escapeList rest

def escape_markdown (s : String) : String := String.mk (escapeList s.data)

/-! ## The Action-Text Extractor (`extract_token_link`, `get_transaction_action`) -/

def hexDigit (c : Char) : Bool :=
  c.isDigit || ('a' ≤ c && c ≤ 'f') || ('A' ≤ c && c ≤ 'F')

/-- Leftmost index of a `re.search(r'/token/0x[0-9a-fA-F]{40}', l)` match. -/
def findTokenAux : List Char → Nat → Option Nat
  | [], _ => none
  | l@(_ :: rest), i =>
    if "/token/0x".data.isPrefixOf l ∧ ((l.drop 9).take 40).length = 40 ∧
        ((l.drop 9).take 40).all hexDigit
    then some i else findTokenAux rest (i + 1)

def findToken (l : List Char) : Option Nat := findTokenAux l 0

/-- Python slice `l[start:stop]` where `stop` is either a found index or the
`-1` returned by a failed `find` (modelled as `none`, meaning `len - 1`). -/
def pySlice (l : List Char) (start : Nat) (stop : Option Nat) : List Char :=
  (l.take (match stop with | some e => e | none => l.length - 1)).drop start

/-- Model of `extract_token_link` from `main.py`. -/
def extract_token_link (action_line : List Char) : Option (List Char) × Option (List Char) :=
  if (findSub "/token/".data action_line).isSome then
    match findToken action_line with
    | some i =>
      let grp := (action_line.drop i).take 49
      let link := "https://etherscan.io".data ++ grp
      let startIdx : Nat :=
        match findSubFrom ['>'] action_line (i + 49) with
        | some p => p + 1
        | none => 0
      let token_text := pyStripList (pySlice action_line startIdx
        (findSubFrom "</a>".data action_line startIdx))
      (some link, some token_text)
    | none => (none, none)
  else (none, none)

def sentinel : String := "No ACTION info available"

def markerChars : List Char := "Transaction Action: ".data

/-- First line index containing the `Transaction Action: ` marker. -/
def firstMarkerIdx (lines : List (List Char)) : Option Nat :=
  firstIdxAux (fun l => (findSub markerChars l).isSome) lines 0

/-- Model of `next((j for j in range(i, len(lines)) if 'Sponsored:' in lines[j]), None)`. -/
def sponsoredFrom (lines : List (List Char)) (i : Nat) : Option Nat :=
  (firstIdxAux (fun l => (findSub "Sponsored:".data l).isSome) (lines.drop i) 0).map (· + i)

/-- Model of `line.strip().replace('Transaction Action: ', '').strip()`. -/
def level1 (line : List Char) : List Char :=
  pyStripList (replaceAll markerChars [] (pyStripList line))

/-- The fallback ladder of `get_transaction_action` choosing `action_line`;
`none` models the `IndexError` on `lines[i + 1]` when the marker is on the
last line and its own content sanitizes to empty. -/
def selectActionLine (lines : List (List Char)) (i : Nat) : Option (List Char) :=
  if clean_htmlL (level1 (lines.getD i [])) ≠ [] then some (level1 (lines.getD i []))
  else
    match lines.get? (i + 1) with
    | none => none
    | some nxt =>
      if clean_htmlL (pyStripList nxt) ≠ [] then some (pyStripList nxt)
      else
        match sponsoredFrom lines i with
        | some j =>
          if j ≠ 0 then some (pyStripList (joinNL ((lines.drop (i + 1)).take (j - (i + 1)))))
          else some sentinel.data
        | none => some sentinel.data

/-- The markup link `[{token_text}]({token_link})`. -/
def tokenMarkup (txt link : List Char) : List Char :=
  '[' :: txt ++ ']' :: '(' :: link ++ [')']

/-- Cleaning plus token-link injection applied to the selected action line
(the content substitution that precedes the markdown escape). -/
def substitutedAction (action_line : List Char) : List Char :=
  match extract_token_link action_line with
  | (some link, some txt) =>
    if txt ≠ [] then replaceAll txt (tokenMarkup txt link) (clean_htmlL action_line)
    else clean_htmlL action_line
  | _ => clean_htmlL action_line

/-- The extraction performed on a fetched page body (`status == 200` path of
`get_transaction_action`); `none` models the `IndexError` crash. -/
def extract_from_page (page : String) : Option String :=
  match firstMarkerIdx (splitLines page.data) with
  | none => some sentinel
  | some i =>
    (selectActionLine (splitLines page.data) i).map
      (fun al => String.mk (escapeList (substitutedAction al)))

/-! ## Retry Wrapper and the fetch model -/

/-- Outcome of one `requests.get` attempt: a response with a status code and
body, or a raised request exception. -/
inductive FetchResp
  | ok (status : Nat) (body : String)
  | exn
deriving DecidableEq

/-- The Python exceptions that can escape one attempt of
`get_transaction_action`. -/
inductive PyError
  | httpError (status : Nat)
  | requestExn
  | indexError
deriving DecidableEq

/-- The `retry` decorator's control flow (`tries` attempts, the last failure
re-raised); `k` numbers the attempts so the oracle `f` can vary per attempt. -/
def retryRun {ε α : Type} (f : Nat → Except ε α) : Nat → Nat → Except ε α
  | 0, k => f k
  | 1, k => f k
  | tries + 2, k =>
    match f k with
    | .ok a => .ok a
    | .error _ => retryRun f (tries + 1) (k + 1)

/-- The sleep performed before the `(n+1)`-th retry, for
`delay=2, backoff=2, jitter=(1,3)`: the library sleeps `_delay`, then sets
`_delay := _delay * backoff + jitter_n`. -/
def retryDelay (jitter : Nat → ℚ) : Nat → ℚ
  | 0 => 2
  | n + 1 => 2 * retryDelay jitter n + jitter n

/-- One attempt of the body of `get_transaction_action`: on status 200 run the
page extraction (whose `none` is an `IndexError`); `raise_for_status()` raises
on 4xx/5xx; any other status falls through to the sentinel return. -/
def attemptFetch (fetch : Nat → FetchResp) (k : Nat) : Except PyError String :=
  match fetch k with
  | .exn => .error .requestExn
  | .ok status body =>
    if status = 200 then
      match extract_from_page body with
      | some s => .ok s
      | none => .error .indexError
    else if 400 ≤ status ∧ status < 600 then .error (.httpError status)
    else .ok sentinel

/-- Model of `get_transaction_action` for one transaction, `fetch` giving the outcome
of each of its explorer fetch attempts (`@retry(tries=5, ...)`). -/
def get_transaction_action (fetch : Nat → FetchResp) : Except PyError String :=
  retryRun (attemptFetch fetch) 5 0

/-! ## Event Matcher, Classifier and Dispatcher (`handle_event`) -/

structure Tx where
  fromAddr : String
  toAddr : Option String
  value : Nat
  hash : String
deriving DecidableEq

/-- The module configuration: monitored addresses (already lowercased, as at
startup), the address→name map, and the three feature toggles. -/
structure Config where
  monitored : List String
  addressMap : List (String × String)
  allowSwapOnly : Bool
  allowAggregated : Bool
  allowTradingBot : Bool

/-- Model of `ADDRESS_MAP.get(k, d)`; a Python dict keeps the last binding of a key,
hence the lookup on the reversed association list. -/
def mapGetD (m : List (String × String)) (k d : String) : String :=
  ((m.reverse.find? (fun p => p.1 == k)).map Prod.snd).getD d

structure ForwardedDetails where
  from_name : String
  tx_hash : String
  action_text : String
deriving DecidableEq

/-- An observable emission of `handle_event`: a Telegram dispatch or a
forward to the trading-bot sink, in invocation order. -/
inductive Output
  | telegram (msg : String)
  | forward (d : ForwardedDetails)
deriving DecidableEq

/-- Model of `tx['to'].lower() if tx['to'] else None` (an empty string is falsy). -/
def toAddressOf (tx : Tx) : Option String :=
  match tx.toAddr with
  | some t => if t = "" then none else some (lowerStr t)
  | none => none

def fromAddressOf (tx : Tx) : String := lowerStr tx.fromAddr

def fromNameOf (cfg : Config) (tx : Tx) : String :=
  mapGetD cfg.addressMap (fromAddressOf tx) (fromAddressOf tx)

/-- Model of `ADDRESS_MAP.get(to_address, to_address)`; a missing recipient renders as
Python `None` does in an f-string. -/
def toNameOf (cfg : Config) (tx : Tx) : String :=
  match toAddressOf tx with
  | some t => mapGetD cfg.addressMap t t
  | none => "None"

def optStr : Option String → String
  | some s => s
  | none => "None"

def txHashLink (tx : Tx) : String :=
  "[" ++ tx.hash ++ "](https://etherscan.io/tx/" ++ tx.hash ++ ")"

def fromNameLink (cfg : Config) (tx : Tx) : String :=
  "[" ++ fromNameOf cfg tx ++ "](https://etherscan.io/address/" ++ fromAddressOf tx ++ ")"

def toNameLink (cfg : Config) (tx : Tx) : String :=
  "[" ++ toNameOf cfg tx ++ "](https://etherscan.io/address/" ++ optStr (toAddressOf tx) ++ ")"

/-- The swap/aggregated-only gate of line 199 of `main.py`. -/
def passGate (cfg : Config) (a : String) : Bool :=
  startsWithS a "Swap" || (cfg.allowAggregated && startsWithS a "Aggregated")

def buyLabel : String := "⭐ *Token BUY* 💵\n\n"

def sellLabel : String := "⭐ *Token SELL* 💵\n\n"

/-- The `token_action` classification label built from the action text. -/
def tokenActionOf (a : String) : String :=
  (if containsSub a "ETH For" then buyLabel else "") ++
  (if containsSub a "ETH On" then sellLabel else "")

def outgoingMessage (cfg : Config) (tx : Tx) (a : String) : String :=
  tokenActionOf a ++ ("*Wallet:*\n" ++ (fromNameLink cfg tx ++
    ("\n\n*Transaction Hash:*\n" ++ (txHashLink tx ++ ("\n\n*Action:*\n" ++ a)))))

def incomingMessage (cfg : Config) (tx : Tx) : String :=
  "⭐ *" ++ toNameLink cfg tx ++ ": INCOMING* 💵\n\n*From:*\n" ++ fromAddressOf tx ++
  "\n\n*To:*\n" ++ optStr (toAddressOf tx) ++ "\n\n*Transaction Hash:*\n" ++ txHashLink tx

def forwardDetails (cfg : Config) (tx : Tx) (a : String) : ForwardedDetails :=
  ⟨fromNameOf cfg tx, tx.hash, a⟩

/-- The emissions of the incoming (`to` monitored) branch. -/
def incomingOuts (cfg : Config) (tx : Tx) : List Output :=
  match toAddressOf tx with
  | some t =>
    if t ∈ cfg.monitored then
      if cfg.allowSwapOnly then [] else [.telegram (incomingMessage cfg tx)]
    else []
  | none => []

/-- Model of `handle_event` from `main.py`: the outgoing branch (with its gate, its
early `return`, the forward and the Telegram dispatch) followed by the
incoming branch; an uncaught extractor exception aborts both. -/
def handle_event (cfg : Config) (fetch : Nat → FetchResp) (tx : Tx) :
    Except PyError (List Output) :=
  if fromAddressOf tx ∈ cfg.monitored then
    match get_transaction_action fetch with
    | .error e => .error e
    | .ok a =>
      if cfg.allowSwapOnly && !(passGate cfg a) then .ok []
      else
        .ok ((if cfg.allowTradingBot then [.forward (forwardDetails cfg tx a)] else []) ++
          [.telegram (outgoingMessage cfg tx a)] ++ incomingOuts cfg tx)
  else .ok (incomingOuts cfg tx)

/-! ## Chain Poller (`log_loop`) -/

/-- One poll tick of `log_loop`: the handled `(blockNumber, tx)` trace in
order, and the updated `latest_block`. `chain b` is block `b`'s transaction
list in block order. -/
def pollStep (chain : Nat → List Tx) (latest head : Nat) : List (Nat × Tx) × Nat :=
  if head > latest then
    (((List.range' (latest + 1) (head - latest)).flatMap
        (fun b => (chain b).map (fun t => (b, t)))), head)
  else ([], latest)

/-- A run of poll ticks over the successive observed heads. -/
def pollRun (chain : Nat → List Tx) (latest : Nat) : List Nat → List (Nat × Tx) × Nat
  | [] => ([], latest)
  | h :: hs =>
    let st := pollStep chain latest h
    let rest := pollRun chain st.2 hs
    (st.1 ++ rest.1, rest.2)

/-! ## Helper lemmas -/

theorem retryRun_step {ε α : Type} (f : Nat → Except ε α) (n k : Nat) (e : ε)
    (h : f k = .error e) : retryRun f (n + 2) k = retryRun f (n + 1) (k + 1) := by
  show (match f k with | .ok a => Except.ok a | .error _ => retryRun f (n + 1) (k + 1)) = _
  rw [h]

theorem retryRun_hit {ε α : Type} (f : Nat → Except ε α) (n k : Nat) (a : α)
    (h : f k = .ok a) : retryRun f (n + 2) k = .ok a := by
  show (match f k with | .ok a => Except.ok a | .error _ => retryRun f (n + 1) (k + 1)) = _
  rw [h]

theorem retryRun_five_err {ε α : Type} (f : Nat → Except ε α) (es : Nat → ε)
    (h : ∀ k, k < 5 → f k = .error (es k)) : retryRun f 5 0 = .error (es 4) := by
  rw [show (5 : Nat) = 3 + 2 from rfl, retryRun_step f 3 0 _ (h 0 (by omega)),
    retryRun_step f 2 1 _ (h 1 (by omega)), retryRun_step f 1 2 _ (h 2 (by omega)),
    retryRun_step f 0 3 _ (h 3 (by omega))]
  show f 4 = _
  exact h 4 (by omega)

theorem retryRun_five_lastok {ε α : Type} (f : Nat → Except ε α) (es : Nat → ε) (a : α)
    (h : ∀ k, k < 4 → f k = .error (es k)) (h4 : f 4 = .ok a) : retryRun f 5 0 = .ok a := by
  rw [show (5 : Nat) = 3 + 2 from rfl, retryRun_step f 3 0 _ (h 0 (by omega)),
    retryRun_step f 2 1 _ (h 1 (by omega)), retryRun_step f 1 2 _ (h 2 (by omega)),
    retryRun_step f 0 3 _ (h 3 (by omega))]
  show f 4 = _
  exact h4

theorem retryRun_first {ε α : Type} (f : Nat → Except ε α) (a : α)
    (h : f 0 = .ok a) : retryRun f 5 0 = .ok a := by
  rw [show (5 : Nat) = 3 + 2 from rfl]
  exact retryRun_hit f 3 0 a h

theorem retryDelay_le (j : Nat → ℚ) (hj : ∀ n, 1 ≤ j n ∧ j n ≤ 3) (n : Nat) :
    retryDelay j n ≤ 2 * 2 ^ n + 3 * (2 ^ n - 1) := by
  induction n with
  | zero => norm_num [retryDelay]
  | succ n ih =>
    have hjn := (hj n).2
    have hs : retryDelay j (n + 1) = 2 * retryDelay j n + j n := rfl
    rw [hs, pow_succ]
    linarith

/-! ## C4 -/

/-- C4, counterexample: with the jitter drawn at its maximum 3 on every
retry (inside the fixed range [1, 3]), the sleep performed before the 5th
attempt is 2·(2·(2·2+3)+3)+3 = 37, which exceeds the claimed bound
base·2^(N-1) + maxJitter = 2·2^4 + 3 = 35 (and a fortiori the bound read
with N as the retry index). -/
theorem c4_counterexample :
    (1 ≤ (3 : ℚ) ∧ (3 : ℚ) ≤ 3) ∧
    retryDelay (fun _ => 3) 3 = 37 ∧
    ¬(retryDelay (fun _ => 3) 3 ≤ 2 * 2 ^ (5 - 1) + 3) := by
  refine ⟨by norm_num, ?_, ?_⟩
  · show (2 * (2 * (2 * 2 + 3) + 3) + 3 : ℚ) = 37
    norm_num
  · show ¬((2 * (2 * (2 * 2 + 3) + 3) + 3 : ℚ) ≤ 2 * 2 ^ (5 - 1) + 3)
    norm_num

/-- C4, amended: the wrapper makes at most 5 attempts; failing 4 times and
succeeding on the 5th returns the success, failing all 5 propagates the
last failure; but because the `retry` library multiplies the accumulated
jitter by the backoff factor as well, the sleep before attempt N is only
bounded by base·2^(N-2) + maxJitter·(2^(N-2) − 1) (sleep index n = N − 2),
not by base·2^(N-1) + maxJitter. -/
theorem c4_amended {ε α : Type} (f : Nat → Except ε α) (es : Nat → ε) (a : α)
    (j : Nat → ℚ) (hj : ∀ n, 1 ≤ j n ∧ j n ≤ 3) :
    ((∀ k, k < 4 → f k = .error (es k)) → f 4 = .ok a → retryRun f 5 0 = .ok a) ∧
    ((∀ k, k < 5 → f k = .error (es k)) → retryRun f 5 0 = .error (es 4)) ∧
    (∀ n, retryDelay j n ≤ 2 * 2 ^ n + 3 * (2 ^ n - 1)) :=
  ⟨fun h h4 => retryRun_five_lastok f es a h h4,
   fun h => retryRun_five_err f es h,
   retryDelay_le j hj⟩

/-- C4, witness: a concrete call failing on attempts 1–4 and succeeding on
the 5th returns the success value, and the corrected delay bound holds at a
concrete jitter sequence. -/
theorem c4_witness :
    retryRun (fun k => if k < 4 then Except.error () else Except.ok 7) 5 0 = Except.ok 7 ∧
    retryDelay (fun _ => 2) 2 ≤ 2 * 2 ^ 2 + 3 * (2 ^ 2 - 1) := by
  have h := c4_amended (fun k => if k < 4 then Except.error () else Except.ok 7)
    (fun _ => ()) 7 (fun _ => 2) (fun _ => by norm_num)
  exact ⟨h.1 (fun k hk => by simp [hk]) (by norm_num), h.2.2 2⟩

/-! ## C1 -/

/-- C1, counterexample: a persistently failing explorer fetch (HTTP 500 on
every attempt) makes `get_transaction_action` raise the final `HTTPError`
to its caller rather than return the sentinel string — the retry decorator
re-raises after exhausting its 5 tries and `handle_event` installs no
handler. -/
theorem c1_counterexample :
    get_transaction_action (fun _ => FetchResp.ok 500 "") =
      Except.error (PyError.httpError 500) ∧
    get_transaction_action (fun _ => FetchResp.ok 500 "") ≠ Except.ok sentinel := by
  constructor
  · rfl
  · intro h
    rw [show get_transaction_action (fun _ => FetchResp.ok 500 "") =
      Except.error (PyError.httpError 500) from rfl] at h
    exact Except.noConfusion h

/-- C1, amended: `get_transaction_action` returns the sentinel when a fetch
succeeds with status 200 but extraction falls through, or with a non-200
status outside 400–599; but when every attempt raises (network exception or
`raise_for_status` on a 4xx/5xx response), the last exception propagates to
the caller instead of the sentinel being returned. -/
theorem c1_amended (fetch : Nat → FetchResp) (body : String) (r : String) (s : Nat)
    (es : Nat → PyError) :
    (fetch 0 = FetchResp.ok 200 body → extract_from_page body = some r →
      get_transaction_action fetch = Except.ok r) ∧
    (fetch 0 = FetchResp.ok s body → s ≠ 200 → ¬(400 ≤ s ∧ s < 600) →
      get_transaction_action fetch = Except.ok sentinel) ∧
    ((∀ k, k < 5 → attemptFetch fetch k = Except.error (es k)) →
      get_transaction_action fetch = Except.error (es 4)) := by
  refine ⟨fun h0 hx => ?_, fun h0 hs he => ?_, fun h => retryRun_five_err _ es h⟩
  · exact retryRun_first _ r (by simp [attemptFetch, h0, hx])
  · exact retryRun_first _ sentinel (by simp [attemptFetch, h0, hs, he])

/-- C1, witness: concrete fetch oracles exercising all three amended cases —
a 200 page with no marker yields the sentinel, a non-error non-200 status
yields the sentinel, and persistent request exceptions propagate. -/
theorem c1_witness :
    get_transaction_action (fun _ => FetchResp.ok 200 "no marker") = Except.ok sentinel ∧
    get_transaction_action (fun _ => FetchResp.ok 304 "") = Except.ok sentinel ∧
    get_transaction_action (fun _ => FetchResp.exn) = Except.error PyError.requestExn := by
  refine ⟨?_, ?_, ?_⟩
  · exact (c1_amended (fun _ => FetchResp.ok 200 "no marker") "no marker" sentinel 200
      (fun _ => PyError.requestExn)).1 rfl (by decide)
  · exact (c1_amended (fun _ => FetchResp.ok 304 "") "" sentinel 304
      (fun _ => PyError.requestExn)).2.1 rfl (by decide) (by decide)
  · exact (c1_amended (fun _ => FetchResp.exn) "" sentinel 0
      (fun _ => PyError.requestExn)).2.2 (fun k _ => rfl)

theorem selectActionLine_l1 (lines : List (List Char)) (i : Nat)
    (h1 : clean_htmlL (level1 (lines.getD i [])) ≠ []) :
    selectActionLine lines i = some (level1 (lines.getD i [])) := by
  unfold selectActionLine
  rw [if_pos h1]

theorem selectActionLine_l2 (lines : List (List Char)) (i : Nat) (nxt : List Char)
    (h1 : clean_htmlL (level1 (lines.getD i [])) = [])
    (h2 : lines.get? (i + 1) = some nxt) (h3 : clean_htmlL (pyStripList nxt) ≠ []) :
    selectActionLine lines i = some (pyStripList nxt) := by
  unfold selectActionLine
  rw [if_neg (not_not_intro h1)]
  simp only [h2]
  rw [if_pos h3]

theorem selectActionLine_l3 (lines : List (List Char)) (i : Nat) (nxt : List Char) (j : Nat)
    (h1 : clean_htmlL (level1 (lines.getD i [])) = [])
    (h2 : lines.get? (i + 1) = some nxt) (h3 : clean_htmlL (pyStripList nxt) = [])
    (hsp : sponsoredFrom lines i = some j) (hj : j ≠ 0) :
    selectActionLine lines i =
      some (pyStripList (joinNL ((lines.drop (i + 1)).take (j - (i + 1))))) := by
  unfold selectActionLine
  rw [if_neg (not_not_intro h1)]
  simp only [h2]
  rw [if_neg (not_not_intro h3)]
  simp only [hsp]
  rw [if_pos hj]

theorem selectActionLine_l4 (lines : List (List Char)) (i : Nat) (nxt : List Char)
    (h1 : clean_htmlL (level1 (lines.getD i [])) = [])
    (h2 : lines.get? (i + 1) = some nxt) (h3 : clean_htmlL (pyStripList nxt) = [])
    (hsp : sponsoredFrom lines i = none ∨ sponsoredFrom lines i = some 0) :
    selectActionLine lines i = some sentinel.data := by
  unfold selectActionLine
  rw [if_neg (not_not_intro h1)]
  simp only [h2]
  rw [if_neg (not_not_intro h3)]
  rcases hsp with hsp | hsp
  · simp only [hsp]
  · simp only [hsp]
    rw [if_neg (not_not_intro rfl)]

/-! ## C2 -/

/-- C2, counterexample: on a page where the marker line's trailing content,
the following line, and the text between the marker and the next
`Sponsored:` line all sanitize to empty, extraction returns the empty
string, not the sentinel — level (iii) returns its (possibly empty) block
verbatim whenever a `Sponsored:` line is found at a nonzero index. -/
theorem c2_counterexample :
    clean_html "<b></b>" = "" ∧ clean_html "<i></i>" = "" ∧
    extract_from_page "x\nTransaction Action: <b></b>\n<i></i>\nSponsored: s" = some "" ∧
    ("" : String) ≠ sentinel := by
  exact ⟨rfl, rfl, rfl, by decide⟩

/-- C2, amended: extraction uses (i) the sanitized content of the marker
line after stripping and marker removal if non-empty, else (ii) the next
line if non-empty after sanitization, else (iii) the block up to the next
`Sponsored:` line when one is found at a nonzero index — returned even when
that block sanitizes to empty — and the sentinel is returned only when no
marker line exists, or when levels (i)–(ii) are empty and no `Sponsored:`
line is found (or it is found only at line index 0). -/
theorem c2_amended (page : String) (lines : List (List Char))
    (hp : splitLines page.data = lines) :
    (firstMarkerIdx lines = none → extract_from_page page = some sentinel) ∧
    (∀ i, firstMarkerIdx lines = some i →
      ((clean_htmlL (level1 (lines.getD i [])) ≠ [] →
          extract_from_page page =
            some (String.mk (escapeList (substitutedAction (level1 (lines.getD i [])))))) ∧
       (∀ nxt, clean_htmlL (level1 (lines.getD i [])) = [] →
          lines.get? (i + 1) = some nxt → clean_htmlL (pyStripList nxt) ≠ [] →
          extract_from_page page =
            some (String.mk (escapeList (substitutedAction (pyStripList nxt))))) ∧
       (∀ nxt j, clean_htmlL (level1 (lines.getD i [])) = [] →
          lines.get? (i + 1) = some nxt → clean_htmlL (pyStripList nxt) = [] →
          sponsoredFrom lines i = some j → j ≠ 0 →
          extract_from_page page =
            some (String.mk (escapeList (substitutedAction
              (pyStripList (joinNL ((lines.drop (i + 1)).take (j - (i + 1))))))))) ∧
       (∀ nxt, clean_htmlL (level1 (lines.getD i [])) = [] →
          lines.get? (i + 1) = some nxt → clean_htmlL (pyStripList nxt) = [] →
          (sponsoredFrom lines i = none ∨ sponsoredFrom lines i = some 0) →
          extract_from_page page = some sentinel))) := by
  subst hp
  constructor
  · intro h
    simp only [extract_from_page, h]
  · intro i hi
    refine ⟨?_, ?_, ?_, ?_⟩
    · intro h1
      simp only [extract_from_page, hi, selectActionLine_l1 _ _ h1, Option.map_some']
    · intro nxt h1 h2 h3
      simp only [extract_from_page, hi, selectActionLine_l2 _ _ _ h1 h2 h3, Option.map_some']
    · intro nxt j h1 h2 h3 hsp hj
      simp only [extract_from_page, hi, selectActionLine_l3 _ _ _ _ h1 h2 h3 hsp hj,
        Option.map_some']
    · intro nxt h1 h2 h3 hsp
      simp only [extract_from_page, hi, selectActionLine_l4 _ _ _ h1 h2 h3 hsp,
        Option.map_some']
      rfl

/-- C2, witness: the three ladder levels and the two sentinel cases on
literal synthetic pages, each derived from the amended theorem. -/
theorem c2_witness :
    extract_from_page "Transaction Action: Swap 1 ETH" = some "Swap 1 ETH" ∧
    extract_from_page "Transaction Action: <a></a>\nSwap 2 ETH" = some "Swap 2 ETH" ∧
    extract_from_page "Transaction Action: <a></a>\n<b></b>\nSwap 3 ETH\nSponsored: x" =
      some "Swap 3 ETH" ∧
    extract_from_page "nothing here" = some sentinel ∧
    extract_from_page "Transaction Action: <a></a>\n<b></b>\nno sponsor" = some sentinel := by
  refine ⟨?_, ?_, ?_, ?_, ?_⟩
  · exact (((c2_amended "Transaction Action: Swap 1 ETH" _ rfl).2 0 rfl).1
      (by decide)).trans (by decide)
  · exact (((c2_amended "Transaction Action: <a></a>\nSwap 2 ETH" _ rfl).2 0 rfl).2.1
      "Swap 2 ETH".data (by decide) (by decide) (by decide)).trans (by decide)
  · exact (((c2_amended "Transaction Action: <a></a>\n<b></b>\nSwap 3 ETH\nSponsored: x" _
      rfl).2 0 rfl).2.2.1 "<b></b>".data 3 (by decide) (by decide) (by decide) (by decide)
      (by decide)).trans (by decide)
  · exact (c2_amended "nothing here" _ rfl).1 (by decide)
  · exact ((c2_amended "Transaction Action: <a></a>\n<b></b>\nno sponsor" _ rfl).2 0
      rfl).2.2.2 "<b></b>".data (by decide) (by decide) (by decide) (Or.inl (by decide))

theorem escapeList_eq_flatMap (l : List Char) :
    escapeList l = l.flatMap (fun c => if isReserved c then ['\\', c] else [c]) := by
  induction l with
  | nil => rfl
  | cons c rest ih => simp only [escapeList, List.flatMap_cons, ih]

theorem escapeList_length (l : List Char) :
    (escapeList l).length = l.length + l.countP isReserved := by
  induction l with
  | nil => rfl
  | cons c rest ih =>
    by_cases h : isReserved c <;>
      simp [escapeList, h, ih, List.countP_cons] <;> omega

theorem countP_escapeList (l : List Char) :
    (escapeList l).countP isReserved = 2 * l.countP isReserved := by
  induction l with
  | nil => rfl
  | cons c rest ih =>
    by_cases h : isReserved c
    · simp [escapeList, h, List.countP_cons, ih,
        show isReserved '\\' = true from by decide]
      omega
    · simp [escapeList, h, List.countP_cons, ih]

/-! ## C5 -/

/-- C5: the escape function prefixes every occurrence of each reserved
character with a single backslash and leaves other characters unchanged; in
the extraction pipeline it is applied exactly once, to the fully
substituted (cleaned, token-link-injected) content; and escaping a string
containing any reserved character is not idempotent. -/
theorem c5_theorem :
    (∀ s : String, escape_markdown s =
      String.mk (s.data.flatMap (fun c => if isReserved c then ['\\', c] else [c]))) ∧
    (∀ (page : String) (i : Nat) (al : List Char),
      firstMarkerIdx (splitLines page.data) = some i →
      selectActionLine (splitLines page.data) i = some al →
      extract_from_page page = some (escape_markdown (String.mk (substitutedAction al)))) ∧
    (∀ s : String, (∃ c ∈ s.data, isReserved c = true) →
      escape_markdown (escape_markdown s) ≠ escape_markdown s) := by
  refine ⟨fun s => congrArg String.mk (escapeList_eq_flatMap s.data), ?_, ?_⟩
  · intro page i al hi hsel
    simp only [extract_from_page, hi, hsel, Option.map_some']
    rfl
  · intro s h heq
    have hd : escapeList (escapeList s.data) = escapeList s.data :=
      congrArg String.data heq
    have hlen := congrArg List.length hd
    rw [escapeList_length, escapeList_length, countP_escapeList] at hlen
    have hpos : 0 < s.data.countP isReserved := by
      obtain ⟨c, hc, hr⟩ := h
      exact List.countP_pos_iff.mpr ⟨c, hc, hr⟩
    omega

/-- C5, witness: the concrete escape of `a.b`, its non-idempotence, and the
pipeline applying the escape once after substitution on a literal page. -/
theorem c5_witness :
    escape_markdown "a.b" = "a\\.b" ∧
    escape_markdown (escape_markdown "a.b") ≠ escape_markdown "a.b" ∧
    extract_from_page "Transaction Action: Swap 1.5 ETH" =
      some (escape_markdown "Swap 1.5 ETH") := by
  refine ⟨(c5_theorem.1 "a.b").trans (by decide), ?_, ?_⟩
  · exact c5_theorem.2.2 "a.b" ⟨'.', by decide, by decide⟩
  · exact (c5_theorem.2.1 "Transaction Action: Swap 1.5 ETH" 0 "Swap 1.5 ETH".data
      (by decide) (by decide)).trans (by decide)

theorem incomingOuts_swapOnly (cfg : Config) (tx : Tx) (h : cfg.allowSwapOnly = true) :
    incomingOuts cfg tx = [] := by
  unfold incomingOuts
  cases hta : toAddressOf tx with
  | none => rfl
  | some t => by_cases hm : t ∈ cfg.monitored <;> simp [hm, h]

theorem incomingOuts_hit (cfg : Config) (tx : Tx) (u : String)
    (h : cfg.allowSwapOnly = false) (ht : toAddressOf tx = some u)
    (hu : u ∈ cfg.monitored) :
    incomingOuts cfg tx = [.telegram (incomingMessage cfg tx)] := by
  unfold incomingOuts
  rw [ht]
  simp [hu, h]

theorem incomingOuts_miss (cfg : Config) (tx : Tx)
    (h : ∀ u, toAddressOf tx = some u → u ∉ cfg.monitored) :
    incomingOuts cfg tx = [] := by
  unfold incomingOuts
  cases hta : toAddressOf tx with
  | none => rfl
  | some t => simp [h t hta]

theorem handle_event_notFrom (cfg : Config) (fetch : Nat → FetchResp) (tx : Tx)
    (h : fromAddressOf tx ∉ cfg.monitored) :
    handle_event cfg fetch tx = .ok (incomingOuts cfg tx) := by
  unfold handle_event
  rw [if_neg h]

theorem handle_event_err (cfg : Config) (fetch : Nat → FetchResp) (tx : Tx) (e : PyError)
    (h : fromAddressOf tx ∈ cfg.monitored)
    (he : get_transaction_action fetch = .error e) :
    handle_event cfg fetch tx = .error e := by
  unfold handle_event
  rw [if_pos h]
  simp only [he]

theorem handle_event_gated (cfg : Config) (fetch : Nat → FetchResp) (tx : Tx) (a : String)
    (h : fromAddressOf tx ∈ cfg.monitored)
    (ha : get_transaction_action fetch = .ok a)
    (hb : (cfg.allowSwapOnly && !passGate cfg a) = true) :
    handle_event cfg fetch tx = .ok [] := by
  unfold handle_event
  rw [if_pos h]
  simp only [ha]
  rw [if_pos hb]

theorem handle_event_pass (cfg : Config) (fetch : Nat → FetchResp) (tx : Tx) (a : String)
    (h : fromAddressOf tx ∈ cfg.monitored)
    (ha : get_transaction_action fetch = .ok a)
    (hb : (cfg.allowSwapOnly && !passGate cfg a) = false) :
    handle_event cfg fetch tx = .ok
      ((if cfg.allowTradingBot then [.forward (forwardDetails cfg tx a)] else []) ++
        [.telegram (outgoingMessage cfg tx a)] ++ incomingOuts cfg tx) := by
  unfold handle_event
  rw [if_pos h]
  simp only [ha]
  rw [if_neg (by simp [hb])]

/-! ## C3 -/

/-- C3: with the swap-only filter enabled, an outgoing event is dispatched
(and, when the trading-bot toggle is on, forwarded) exactly when its action
text passes the Swap/Aggregated prefix gate; a failing outgoing event
produces no emission at all, and an incoming-only event produces no
emission at all (incoming notifications are suppressed entirely). -/
theorem c3_theorem (cfg : Config) (fetch : Nat → FetchResp) (tx : Tx)
    (hswap : cfg.allowSwapOnly = true) :
    (∀ a, get_transaction_action fetch = .ok a → passGate cfg a = false →
      fromAddressOf tx ∈ cfg.monitored → handle_event cfg fetch tx = .ok []) ∧
    (∀ a, get_transaction_action fetch = .ok a → passGate cfg a = true →
      fromAddressOf tx ∈ cfg.monitored →
      handle_event cfg fetch tx = .ok
        ((if cfg.allowTradingBot then [Output.forward (forwardDetails cfg tx a)] else []) ++
          [Output.telegram (outgoingMessage cfg tx a)])) ∧
    (fromAddressOf tx ∉ cfg.monitored → handle_event cfg fetch tx = .ok []) := by
  refine ⟨?_, ?_, ?_⟩
  · intro a ha hp hf
    exact handle_event_gated cfg fetch tx a hf ha (by simp [hswap, hp])
  · intro a ha hp hf
    rw [handle_event_pass cfg fetch tx a hf ha (by simp [hp]),
      incomingOuts_swapOnly cfg tx hswap]
    simp
  · intro hf
    rw [handle_event_notFrom cfg fetch tx hf, incomingOuts_swapOnly cfg tx hswap]

/-- C3, witness: with the filter on, a monitored sender whose action text is
`Approve spending` triggers neither a notification nor a forward. -/
theorem c3_witness :
    handle_event
      { monitored := ["0xabc"], addressMap := [("0xabc", "Alice")],
        allowSwapOnly := true, allowAggregated := true, allowTradingBot := true }
      (fun _ => FetchResp.ok 200 "Transaction Action: Approve spending")
      { fromAddr := "0xABC", toAddr := none, value := 5, hash := "0xh1" } =
      .ok [] := by
  exact (c3_theorem _ _ _ rfl).1 "Approve spending" rfl (by decide) (by decide)

/-! ## C7 -/

/-- C7: every outgoing event that passes the filter dispatches the outgoing
message, which begins with the classification label; the label is the BUY
label exactly when the action text contains `ETH For`, the SELL label
exactly when it contains `ETH On`, empty when neither, and the BUY label
followed by the SELL label when both. -/
theorem c7_theorem (cfg : Config) (fetch : Nat → FetchResp) (tx : Tx) (a : String)
    (ha : get_transaction_action fetch = .ok a)
    (hfrom : fromAddressOf tx ∈ cfg.monitored)
    (hg : cfg.allowSwapOnly = false ∨ passGate cfg a = true) :
    (∃ outs, handle_event cfg fetch tx = .ok outs ∧
      Output.telegram (outgoingMessage cfg tx a) ∈ outs) ∧
    (∃ rest, outgoingMessage cfg tx a = tokenActionOf a ++ rest) ∧
    (containsSub a "ETH For" = true → containsSub a "ETH On" = false →
      tokenActionOf a = buyLabel) ∧
    (containsSub a "ETH For" = false → containsSub a "ETH On" = true →
      tokenActionOf a = sellLabel) ∧
    (containsSub a "ETH For" = false → containsSub a "ETH On" = false →
      tokenActionOf a = "") ∧
    (containsSub a "ETH For" = true → containsSub a "ETH On" = true →
      tokenActionOf a = buyLabel ++ sellLabel) := by
  have hb : (cfg.allowSwapOnly && !passGate cfg a) = false := by
    rcases hg with h | h <;> simp [h]
  refine ⟨⟨_, handle_event_pass cfg fetch tx a hfrom ha hb, by simp⟩, ?_, ?_, ?_, ?_, ?_⟩
  · exact ⟨_, rfl⟩
  · intro h1 h2
    simp [tokenActionOf, h1, h2]
  · intro h1 h2
    simp [tokenActionOf, h1, h2]
  · intro h1 h2
    simp [tokenActionOf, h1, h2]
  · intro h1 h2
    simp [tokenActionOf, h1, h2]

/-- C7, witness: a passing swap action containing `ETH For` only is
classified with the BUY label, and one containing both substrings with the
concatenated label. -/
theorem c7_witness :
    tokenActionOf "Swap 2 ETH For TOK" = buyLabel ∧
    tokenActionOf "Swap ETH For X and ETH On Y" = buyLabel ++ sellLabel := by
  have h := c7_theorem
    { monitored := ["0xabc"], addressMap := [("0xabc", "Alice")],
      allowSwapOnly := true, allowAggregated := true, allowTradingBot := true }
    (fun _ => FetchResp.ok 200 "Transaction Action: Swap 2 ETH For TOK")
    { fromAddr := "0xABC", toAddr := none, value := 5, hash := "0xh1" }
    "Swap 2 ETH For TOK" rfl (by decide) (Or.inr (by decide))
  have h2 := c7_theorem
    { monitored := ["0xabc"], addressMap := [("0xabc", "Alice")],
      allowSwapOnly := true, allowAggregated := true, allowTradingBot := true }
    (fun _ => FetchResp.ok 200 "Transaction Action: Swap ETH For X and ETH On Y")
    { fromAddr := "0xABC", toAddr := none, value := 5, hash := "0xh1" }
    "Swap ETH For X and ETH On Y" rfl (by decide) (Or.inr (by decide))
  exact ⟨h.2.2.1 (by decide) (by decide), h2.2.2.2.2.2 (by decide) (by decide)⟩

/-! ## C8 -/

/-- C8: the outgoing and incoming branches are independent when the
swap-only filter is disabled — a self-transfer between monitored addresses
dispatches both the outgoing and the incoming notification, an event
matching only on `to` dispatches the incoming one alone, and an event
matching only on `from` dispatches the outgoing one alone. -/
theorem c8_theorem (cfg : Config) (fetch : Nat → FetchResp)
    (hs : cfg.allowSwapOnly = false) :
    (∀ tx u a, fromAddressOf tx ∈ cfg.monitored → toAddressOf tx = some u →
      u ∈ cfg.monitored → get_transaction_action fetch = .ok a →
      handle_event cfg fetch tx = .ok
        ((if cfg.allowTradingBot then [Output.forward (forwardDetails cfg tx a)] else []) ++
          [Output.telegram (outgoingMessage cfg tx a),
           Output.telegram (incomingMessage cfg tx)])) ∧
    (∀ tx u, fromAddressOf tx ∉ cfg.monitored → toAddressOf tx = some u →
      u ∈ cfg.monitored →
      handle_event cfg fetch tx = .ok [Output.telegram (incomingMessage cfg tx)]) ∧
    (∀ tx a, fromAddressOf tx ∈ cfg.monitored →
      (∀ u, toAddressOf tx = some u → u ∉ cfg.monitored) →
      get_transaction_action fetch = .ok a →
      handle_event cfg fetch tx = .ok
        ((if cfg.allowTradingBot then [Output.forward (forwardDetails cfg tx a)] else []) ++
          [Output.telegram (outgoingMessage cfg tx a)])) := by
  refine ⟨?_, ?_, ?_⟩
  · intro tx u a hf ht hu ha
    rw [handle_event_pass cfg fetch tx a hf ha (by simp [hs]),
      incomingOuts_hit cfg tx u hs ht hu]
    simp
  · intro tx u hf ht hu
    rw [handle_event_notFrom cfg fetch tx hf, incomingOuts_hit cfg tx u hs ht hu]
  · intro tx a hf ht ha
    rw [handle_event_pass cfg fetch tx a hf ha (by simp [hs]), incomingOuts_miss cfg tx ht]
    simp

/-- C8, witness: a concrete self-transfer between monitored addresses with
the filter disabled dispatches the forward, the outgoing message and the
incoming message. -/
theorem c8_witness :
    handle_event
      { monitored := ["0xabc"], addressMap := [("0xabc", "Alice")],
        allowSwapOnly := false, allowAggregated := true, allowTradingBot := true }
      (fun _ => FetchResp.ok 200 "Transaction Action: Approve spending")
      { fromAddr := "0xABC", toAddr := some "0xAbc", value := 5, hash := "0xh1" } =
    .ok
      ((if true then
          [Output.forward (forwardDetails
            { monitored := ["0xabc"], addressMap := [("0xabc", "Alice")],
              allowSwapOnly := false, allowAggregated := true, allowTradingBot := true }
            { fromAddr := "0xABC", toAddr := some "0xAbc", value := 5, hash := "0xh1" }
            "Approve spending")]
        else []) ++
        [Output.telegram (outgoingMessage
          { monitored := ["0xabc"], addressMap := [("0xabc", "Alice")],
            allowSwapOnly := false, allowAggregated := true, allowTradingBot := true }
          { fromAddr := "0xABC", toAddr := some "0xAbc", value := 5, hash := "0xh1" }
          "Approve spending"),
         Output.telegram (incomingMessage
          { monitored := ["0xabc"], addressMap := [("0xabc", "Alice")],
            allowSwapOnly := false, allowAggregated := true, allowTradingBot := true }
          { fromAddr := "0xABC", toAddr := some "0xAbc", value := 5, hash := "0xh1" })]) := by
  exact (c8_theorem _ _ rfl).1
    { fromAddr := "0xABC", toAddr := some "0xAbc", value := 5, hash := "0xh1" }
    "0xabc" "Approve spending" (by decide) (by decide) (by decide) rfl

/-! ## C9 -/

/-- C9: a transaction with an absent `to` field is handled without failure
on account of the missing recipient — the incoming branch emits nothing, a
non-monitored sender yields a clean empty result, an error can only be the
extractor's own error from the outgoing branch, and every emission is an
outgoing-branch forward or outgoing notification. -/
theorem c9_theorem (cfg : Config) (fetch : Nat → FetchResp) (tx : Tx)
    (h : tx.toAddr = none) :
    incomingOuts cfg tx = [] ∧
    (∀ e, handle_event cfg fetch tx = .error e →
      fromAddressOf tx ∈ cfg.monitored ∧ get_transaction_action fetch = .error e) ∧
    (fromAddressOf tx ∉ cfg.monitored → handle_event cfg fetch tx = .ok []) ∧
    (∀ a, get_transaction_action fetch = .ok a → ∃ outs,
      handle_event cfg fetch tx = .ok outs ∧
      ∀ o ∈ outs, o = Output.forward (forwardDetails cfg tx a) ∨
        o = Output.telegram (outgoingMessage cfg tx a)) := by
  have hta : toAddressOf tx = none := by
    unfold toAddressOf
    rw [h]
  have hio : incomingOuts cfg tx = [] := by
    unfold incomingOuts
    rw [hta]
  refine ⟨hio, ?_, ?_, ?_⟩
  · intro e he
    by_cases hf : fromAddressOf tx ∈ cfg.monitored
    · cases hgta : get_transaction_action fetch with
      | error e2 =>
        rw [handle_event_err cfg fetch tx e2 hf hgta] at he
        injection he with h2
        subst h2
        exact ⟨hf, rfl⟩
      | ok a =>
        by_cases hb : (cfg.allowSwapOnly && !passGate cfg a) = true
        · rw [handle_event_gated cfg fetch tx a hf hgta hb] at he
          exact absurd he (by simp)
        · rw [handle_event_pass cfg fetch tx a hf hgta (by simpa using hb)] at he
          exact absurd he (by simp)
    · rw [handle_event_notFrom cfg fetch tx hf, hio] at he
      exact absurd he (by simp)
  · intro hf
    rw [handle_event_notFrom cfg fetch tx hf, hio]
  · intro a ha
    by_cases hf : fromAddressOf tx ∈ cfg.monitored
    · by_cases hb : (cfg.allowSwapOnly && !passGate cfg a) = true
      · exact ⟨[], handle_event_gated cfg fetch tx a hf ha hb, by simp⟩
      · refine ⟨_, handle_event_pass cfg fetch tx a hf ha (by simpa using hb), ?_⟩
        intro o ho
        rw [hio, List.append_nil] at ho
        rcases List.mem_append.mp ho with ho | ho
        · left
          cases hbot : cfg.allowTradingBot <;> rw [hbot] at ho <;> simp at ho
          exact ho
        · right
          simpa using ho
    · exact ⟨[], by rw [handle_event_notFrom cfg fetch tx hf, hio], by simp⟩

/-- C9, witness: a contract-creation transaction (absent `to`) triggers no
incoming emission, and from a non-monitored sender it is handled as a clean
empty success. -/
theorem c9_witness :
    incomingOuts
      { monitored := ["0xabc"], addressMap := [("0xabc", "Alice")],
        allowSwapOnly := false, allowAggregated := true, allowTradingBot := true }
      { fromAddr := "0xABC", toAddr := none, value := 5, hash := "0xh1" } = [] ∧
    handle_event
      { monitored := ["0xdef"], addressMap := [("0xdef", "Bob")],
        allowSwapOnly := false, allowAggregated := true, allowTradingBot := true }
      (fun _ => FetchResp.ok 200 "Transaction Action: Approve spending")
      { fromAddr := "0xABC", toAddr := none, value := 5, hash := "0xh1" } = .ok [] := by
  refine ⟨(c9_theorem
    { monitored := ["0xabc"], addressMap := [("0xabc", "Alice")],
      allowSwapOnly := false, allowAggregated := true, allowTradingBot := true }
    (fun _ => FetchResp.ok 200 "Transaction Action: Approve spending")
    { fromAddr := "0xABC", toAddr := none, value := 5, hash := "0xh1" } rfl).1,
    (c9_theorem _ _ _ rfl).2.2.1 (by decide)⟩

/-! ## C10 -/

/-- C10: the sentinel text starts with neither `Swap` nor `Aggregated`, so
with the swap-only filter enabled an outgoing event whose extraction
returned the sentinel is discarded — no notification and no forward. -/
theorem c10_theorem (cfg : Config) (fetch : Nat → FetchResp) (tx : Tx)
    (hswap : cfg.allowSwapOnly = true)
    (hf : fromAddressOf tx ∈ cfg.monitored)
    (hs : get_transaction_action fetch = .ok sentinel) :
    passGate cfg sentinel = false ∧ handle_event cfg fetch tx = .ok [] := by
  have hp : passGate cfg sentinel = false := by
    simp [passGate, show startsWithS sentinel "Swap" = false from by decide,
      show startsWithS sentinel "Aggregated" = false from by decide]
  exact ⟨hp, handle_event_gated cfg fetch tx sentinel hf hs (by simp [hswap, hp])⟩

/-- C10, witness: a monitored sender whose explorer page lacks the marker
(extraction falls through to the sentinel) is discarded under the filter. -/
theorem c10_witness :
    passGate
      { monitored := ["0xabc"], addressMap := [("0xabc", "Alice")],
        allowSwapOnly := true, allowAggregated := true, allowTradingBot := true }
      sentinel = false ∧
    handle_event
      { monitored := ["0xabc"], addressMap := [("0xabc", "Alice")],
        allowSwapOnly := true, allowAggregated := true, allowTradingBot := true }
      (fun _ => FetchResp.ok 200 "page without the marker")
      { fromAddr := "0xABC", toAddr := some "0xAbc", value := 5, hash := "0xh1" } =
      .ok [] := by
  exact c10_theorem _ _ _ rfl (by decide) rfl

theorem sorted_le_of_all_eq (b : Nat) (m : List Nat) (h : ∀ x ∈ m, x = b) :
    List.Sorted (· ≤ ·) m := by
  induction m with
  | nil => exact List.sorted_nil
  | cons c rest ih =>
    rw [List.sorted_cons]
    refine ⟨fun y hy => ?_, ih (fun x hx => h x (List.mem_cons_of_mem _ hx))⟩
    rw [h c (List.mem_cons_self _ _), h y (List.mem_cons_of_mem _ hy)]

theorem sorted_le_range' (s n : Nat) : List.Sorted (· ≤ ·) (List.range' s n) := by
  induction n generalizing s with
  | zero => exact List.sorted_nil
  | succ n ih =>
    rw [List.range'_succ, List.sorted_cons]
    refine ⟨fun b hb => ?_, ih (s + 1)⟩
    have := (List.mem_range'_1.mp hb).1
    omega

theorem sorted_le_flatMap (l : List Nat) (hl : List.Sorted (· ≤ ·) l) (g : Nat → List Nat)
    (hg : ∀ b, ∀ x ∈ g b, x = b) : List.Sorted (· ≤ ·) (l.flatMap g) := by
  induction l with
  | nil => simp
  | cons a t ih =>
    rw [List.sorted_cons] at hl
    rw [List.flatMap_cons]
    refine List.pairwise_append.mpr ⟨sorted_le_of_all_eq a _ (hg a), ih hl.2, ?_⟩
    intro x hx y hy
    obtain ⟨b, hb, hyb⟩ := List.mem_flatMap.mp hy
    rw [hg a x hx, hg b y hyb]
    exact hl.1 b hb

theorem filter_flatMap_list {α β : Type} (l : List α) (f : α → List β) (p : β → Bool) :
    (l.flatMap f).filter p = l.flatMap (fun a => (f a).filter p) := by
  induction l with
  | nil => rfl
  | cons a t ih => rw [List.flatMap_cons, List.flatMap_cons, List.filter_append, ih]

theorem flatMap_ite_single {β : Type} (b : Nat) (m : Nat → List β) :
    ∀ s n, s ≤ b → b < s + n →
      (List.range' s n).flatMap (fun c => if c = b then m c else []) = m b := by
  intro s n
  induction n generalizing s with
  | zero => omega
  | succ n ih =>
    intro hs hb
    rw [List.range'_succ, List.flatMap_cons]
    by_cases hc : s = b
    · have hrest : (List.range' (s + 1) n).flatMap (fun c => if c = b then m c else []) = [] := by
        apply List.flatMap_eq_nil_iff.mpr
        intro c hcm
        have := (List.mem_range'_1.mp hcm).1
        rw [if_neg (by omega)]
      rw [if_pos hc, hrest, List.append_nil, hc]
    · rw [if_neg hc, List.nil_append]
      exact ih (s + 1) (by omega) (by omega)

theorem flatMap_ite_none {β : Type} (b : Nat) (m : Nat → List β) :
    ∀ s n, b < s ∨ s + n ≤ b →
      (List.range' s n).flatMap (fun c => if c = b then m c else []) = [] := by
  intro s n h
  apply List.flatMap_eq_nil_iff.mpr
  intro c hc
  have := List.mem_range'_1.mp hc
  rw [if_neg (by omega)]

theorem filter_pair_map (b c : Nat) (m : List Tx) :
    ((m.map (fun t => (c, t))).filter (fun p => p.1 == b)) =
      if c = b then m.map (fun t => (c, t)) else [] := by
  by_cases hc : c = b
  · subst hc
    rw [if_pos rfl]
    apply List.filter_eq_self.mpr
    intro p hp
    obtain ⟨t, _, rfl⟩ := List.mem_map.mp hp
    exact beq_self_eq_true c
  · rw [if_neg hc]
    apply List.filter_eq_nil_iff.mpr
    intro p hp
    obtain ⟨t, _, rfl⟩ := List.mem_map.mp hp
    simpa using hc

/-! ## C6 -/

/-- C6: on a tick where the head exceeds `latest_block`, the poller's trace
covers exactly the blocks in `(latest, head]`: the visited block numbers are
non-decreasing (ascending across distinct blocks), each block in the range
contributes precisely its transaction list in block order, blocks outside
the range contribute nothing, the state advances to `head`, and the state
never decreases on any tick or over any run. -/
theorem c6_theorem (chain : Nat → List Tx) (latest head : Nat) (h : latest < head) :
    (pollStep chain latest head).2 = head ∧
    List.Sorted (· ≤ ·) (((pollStep chain latest head).1).map Prod.fst) ∧
    (∀ b, latest < b → b ≤ head →
      (((pollStep chain latest head).1.filter (fun p => p.1 == b)).map Prod.snd) = chain b) ∧
    (∀ b, b ≤ latest ∨ head < b →
      ((pollStep chain latest head).1.filter (fun p => p.1 == b)) = []) ∧
    (∀ l hd, l ≤ (pollStep chain l hd).2) ∧
    (∀ l0 heads, l0 ≤ (pollRun chain l0 heads).2) := by
  have hstep : ∀ l hd, l ≤ (pollStep chain l hd).2 := by
    intro l hd
    unfold pollStep
    by_cases hgt : hd > l
    · rw [if_pos hgt]
      omega
    · rw [if_neg hgt]
  have htr : (pollStep chain latest head).1 =
      (List.range' (latest + 1) (head - latest)).flatMap
        (fun b => (chain b).map (fun t => (b, t))) := by
    unfold pollStep
    rw [if_pos h]
  refine ⟨by unfold pollStep; rw [if_pos h], ?_, ?_, ?_, hstep, ?_⟩
  · rw [htr, List.map_flatMap]
    apply sorted_le_flatMap _ (sorted_le_range' _ _)
    intro b x hx
    obtain ⟨p, hp, rfl⟩ := List.mem_map.mp hx
    obtain ⟨t, _, rfl⟩ := List.mem_map.mp hp
    rfl
  · intro b hb1 hb2
    have hfun : (fun c => ((chain c).map (fun t => (c, t))).filter (fun p => p.1 == b)) =
        (fun c => if c = b then (chain c).map (fun t => (c, t)) else []) :=
      funext (fun c => filter_pair_map b c (chain c))
    rw [htr, filter_flatMap_list, hfun,
      flatMap_ite_single b _ (latest + 1) (head - latest) (by omega) (by omega),
      List.map_map]
    simp
  · intro b hb
    have hfun : (fun c => ((chain c).map (fun t => (c, t))).filter (fun p => p.1 == b)) =
        (fun c => if c = b then (chain c).map (fun t => (c, t)) else []) :=
      funext (fun c => filter_pair_map b c (chain c))
    rw [htr, filter_flatMap_list, hfun,
      flatMap_ite_none b _ (latest + 1) (head - latest) (by omega)]
  · intro l0 heads
    induction heads generalizing l0 with
    | nil => exact le_refl l0
    | cons hd hs ih => exact le_trans (hstep l0 hd) (ih (pollStep chain l0 hd).2)

/-- C6, witness: a concrete catch-up from block 2 to head 4 advances the
state to 4, visits block 3's transaction exactly, and nothing outside the
range. -/
theorem c6_witness :
    (pollStep (fun b => if b = 3 then [Tx.mk "0xA" none 0 "0xh3"] else []) 2 4).2 = 4 ∧
    (((pollStep (fun b => if b = 3 then [Tx.mk "0xA" none 0 "0xh3"] else []) 2 4).1.filter
        (fun p => p.1 == 3)).map Prod.snd) = [Tx.mk "0xA" none 0 "0xh3"] ∧
    ((pollStep (fun b => if b = 3 then [Tx.mk "0xA" none 0 "0xh3"] else []) 2 4).1.filter
        (fun p => p.1 == 2)) = [] := by
  have h := c6_theorem (fun b => if b = 3 then [Tx.mk "0xA" none 0 "0xh3"] else []) 2 4
    (by omega)
  exact ⟨h.1, (h.2.2.1 3 (by omega) (by omega)).trans (by simp),
    h.2.2.2.1 2 (Or.inl (by omega))⟩

end MTB
